import Mathlib

set_option autoImplicit false

/-!
Verification of the Supermarket API backend (src/main.py).

The development shallowly embeds the two pieces of the repository with
non-trivial logic: the cart pricing computation (compute_cart_summary)
and the record normalization performed inline in the list_products and
list_users handlers.  Python floats are modelled as rationals, Python
round (round-half-to-even) as pyRoundInt, and JSON-like documents as
association lists of string keys and values.
-/

/-- A cart line item, mirroring the CartItem pydantic model of
src/main.py (id, name, price float, qty int). -/
structure CartItem where
  id : String
  name : String
  price : ℚ
  qty : ℤ
deriving DecidableEq, Repr

/-- The response model CartSummary of src/main.py. -/
structure CartSummary where
  subtotal : ℚ
  tax : ℚ
  shipping : ℚ
  total : ℚ
deriving DecidableEq, Repr

/-- Boundary validation of a CartItem: pydantic puts a ge=0 bound on
qty only; price carries no constraint. -/
abbrev cartItemValid (i : CartItem) : Prop := 0 ≤ i.qty

/-- Python round to an integer: round half to even. -/
def pyRoundInt (q : ℚ) : ℤ :=
  if q - ⌊q⌋ < 1/2 then ⌊q⌋
  else if q - ⌊q⌋ > 1/2 then ⌊q⌋ + 1
  else if ⌊q⌋ % 2 = 0 then ⌊q⌋ else ⌊q⌋ + 1

/-- Python round(x, 2): round to two decimal places, half to even. -/
def round2 (q : ℚ) : ℚ := (pyRoundInt (q * 100) : ℚ) / 100

/-- Line 154 of src/main.py: subtotal = sum(i.price * i.qty for i in items). -/
def cartSubtotal (items : List CartItem) : ℚ :=
  (items.map (fun i => i.price * (i.qty : ℚ))).sum

/-- Line 155 of src/main.py:
shipping = 0.0 if subtotal == 0 or subtotal > 25 else 4.99. -/
def rawShipping (subtotal : ℚ) : ℚ :=
  if subtotal = 0 ∨ subtotal > 25 then 0 else 499/100

/-- Lines 152-163 of src/main.py: the cart summary computation. -/
def compute_cart_summary (items : List CartItem) : CartSummary :=
  let subtotal := cartSubtotal items
  let shipping := rawShipping subtotal
  let tax := round2 (subtotal * (7/100))
  let total := round2 (subtotal + tax + shipping)
  { subtotal := round2 subtotal
    tax := tax
    shipping := round2 shipping
    total := total }

/-- Placeholder item used for indexed access. -/
def dummyItem : CartItem := { id := "", name := "", price := 0, qty := 0 }

/-- The sum named by the spec: Sigma over all items of price_i times
qty_i, written as an indexed finite sum. -/
def specSubtotal (items : List CartItem) : ℚ :=
  ∑ k ∈ Finset.range items.length,
    (items.getD k dummyItem).price * ((items.getD k dummyItem).qty : ℚ)

/-! ### Helper lemmas about rounding -/

theorem pyRoundInt_low (q : ℚ) (z : ℤ) (h1 : (z : ℚ) ≤ q) (h2 : q < z + 1/2) :
    pyRoundInt q = z := by
  have hf : ⌊q⌋ = z := Int.floor_eq_iff.mpr ⟨h1, by linarith⟩
  unfold pyRoundInt
  rw [hf, if_pos (by linarith)]

theorem pyRoundInt_high (q : ℚ) (z : ℤ) (h1 : (z : ℚ) + 1/2 < q) (h2 : q < z + 1) :
    pyRoundInt q = z + 1 := by
  have hf : ⌊q⌋ = z := Int.floor_eq_iff.mpr ⟨by linarith, h2⟩
  unfold pyRoundInt
  rw [hf, if_neg (by linarith), if_pos (by linarith)]

theorem pyRoundInt_intCast (z : ℤ) : pyRoundInt (z : ℚ) = z :=
  pyRoundInt_low _ z (le_refl _) (by linarith)

theorem round2_div100 (z : ℤ) : round2 ((z : ℚ) / 100) = (z : ℚ) / 100 := by
  have h : ((z : ℚ) / 100) * 100 = (z : ℚ) := by field_simp
  unfold round2
  rw [h, pyRoundInt_intCast]

theorem round2_zero : round2 0 = 0 := by
  have h := round2_div100 0
  simpa using h

theorem round2_eval (q : ℚ) (z : ℤ) (hq : q * 100 = (z : ℚ)) :
    round2 q = (z : ℚ) / 100 := by
  unfold round2
  rw [hq, pyRoundInt_intCast]

theorem round2_rawShipping (s : ℚ) : round2 (rawShipping s) = rawShipping s := by
  unfold rawShipping
  split
  · exact round2_zero
  · have h := round2_div100 499
    norm_num at h
    exact h

theorem compute_cart_summary_eq (items : List CartItem) :
    compute_cart_summary items =
      { subtotal := round2 (cartSubtotal items)
        tax := round2 (cartSubtotal items * (7/100))
        shipping := round2 (rawShipping (cartSubtotal items))
        total := round2 (cartSubtotal items
          + round2 (cartSubtotal items * (7/100))
          + rawShipping (cartSubtotal items)) } := rfl

theorem cartSubtotal_eq_specSubtotal (items : List CartItem) :
    cartSubtotal items = specSubtotal items := by
  induction items with
  | nil => simp [cartSubtotal, specSubtotal]
  | cons a l ih =>
    have h : specSubtotal (a :: l) = a.price * (a.qty : ℚ) + specSubtotal l := by
      simp only [specSubtotal, List.length_cons, Finset.sum_range_succ',
        List.getD_cons_succ, List.getD_cons_zero]
      ring
    have h2 : cartSubtotal (a :: l) = a.price * (a.qty : ℚ) + cartSubtotal l := by
      simp [cartSubtotal]
    rw [h2, h, ih]

/-! ### Documents and the record normalizer -/

/-- A JSON-like value stored in a document.  The vid constructor is an
opaque store identifier (an ObjectId) whose Python str form is the
carried string; the vdatetime constructor is a datetime object whose
isoformat method yields the carried string. -/
inductive Value where
  | vstr (s : String)
  | vid (s : String)
  | vdatetime (iso : String)
  | vint (n : ℤ)
  | vbool (b : Bool)
  | vnum (q : ℚ)
deriving DecidableEq, Repr

/-- Python str applied to a value. -/
def pyStr : Value → String
  | .vstr s => s
  | .vid s => s
  | .vdatetime iso => iso
  | .vint n => toString n
  | .vbool b => if b then "True" else "False"
  | .vnum q => toString q

/-- Python hasattr(v, "isoformat"): true exactly for datetime values. -/
def hasIsoformat : Value → Bool
  | .vdatetime _ => true
  | _ => false

/-- The expression v.isoformat() if hasattr(v, "isoformat") else v. -/
def toIso : Value → Value
  | .vdatetime iso => .vstr iso
  | v => v

/-- A raw stored record: a Python dict modelled as an association list
of string keys and values (keys unique in actual dicts). -/
abbrev Doc := List (String × Value)

/-- Dict lookup: the value at key k, if present. -/
def getVal (d : Doc) (k : String) : Option Value :=
  match d with
  | [] => none
  | (k1, v) :: rest => if k1 = k then some v else getVal rest k

/-- The Python expression k in d. -/
def hasKey (d : Doc) (k : String) : Bool := (getVal d k).isSome

/-- Removal of key k from a dict, as performed by d.pop(k, default)
(dict keys are unique, so removing every entry with the key coincides
with removing the single one). -/
def eraseKey : Doc → String → Doc
  | [], _ => []
  | (k1, v1) :: rest, k =>
    if k1 = k then eraseKey rest k else (k1, v1) :: eraseKey rest k

/-- Dict assignment d[k] = v: overwrite the entry in place when the key
is present, otherwise append the new entry at the end. -/
def setKey : Doc → String → Value → Doc
  | [], k, v => [(k, v)]
  | (k1, v1) :: rest, k, v =>
    if k1 = k then (k, v) :: rest else (k1, v1) :: setKey rest k v

/-- The timestamp line of src/main.py (lines 117-118 and 119-120):
if k in d, set d[k] to d[k].isoformat() when the value has an isoformat
attribute and leave it unchanged otherwise. -/
def normTimestampKey (d : Doc) (k : String) : Doc :=
  if hasKey d k then setKey d k (toIso ((getVal d k).getD (.vstr ""))) else d

/-- The loop body of list_products and list_users (lines 115-120 and
140-145 of src/main.py): d.id is set to str(d.pop("_id", "")), then the
two timestamp keys are converted. -/
def normalizeDoc (d : Doc) : Doc :=
  let idv := pyStr ((getVal d "_id").getD (.vstr ""))
  let d1 := setKey (eraseKey d "_id") "id" (.vstr idv)
  normTimestampKey (normTimestampKey d1 "created_at") "updated_at"

/-- Decidable check that a document is in normalized shape: no opaque
identifier key, a string under the id key, and no datetime value under
either timestamp key. -/
def isNormalizedB (d : Doc) : Bool :=
  (getVal d "_id").isNone
    && (match getVal d "id" with | some (.vstr _) => true | _ => false)
    && (match getVal d "created_at" with | some v => !hasIsoformat v | none => true)
    && (match getVal d "updated_at" with | some v => !hasIsoformat v | none => true)

/-! ### HTTP endpoint handlers -/

/-- The error response raised via HTTPException(status_code=500, detail=str(e)). -/
structure HTTPError where
  status_code : ℕ
  detail : String
deriving DecidableEq, Repr

/-- Lines 101-107 of src/main.py.  The store call create_document is an
external collaborator, passed in as its outcome: Except.error e is a
raised exception whose str form is e. -/
def create_product (insertResult : Except String String) :
    Except HTTPError (String × String) :=
  match insertResult with
  | .ok inserted_id => .ok (inserted_id, "Product created")
  | .error e => .error { status_code := 500, detail := e }

/-- Lines 127-133 of src/main.py. -/
def create_user (insertResult : Except String String) :
    Except HTTPError (String × String) :=
  match insertResult with
  | .ok inserted_id => .ok (inserted_id, "User created")
  | .error e => .error { status_code := 500, detail := e }

/-- Lines 110-123 of src/main.py: fetch, normalize each document,
return the items; any raised error becomes a 500 response. -/
def list_products (fetchResult : Except String (List Doc)) :
    Except HTTPError (List Doc) :=
  match fetchResult with
  | .ok docs => .ok (docs.map normalizeDoc)
  | .error e => .error { status_code := 500, detail := e }

/-- Lines 136-148 of src/main.py. -/
def list_users (fetchResult : Except String (List Doc)) :
    Except HTTPError (List Doc) :=
  match fetchResult with
  | .ok docs => .ok (docs.map normalizeDoc)
  | .error e => .error { status_code := 500, detail := e }

/-! ### Association list lemmas -/

theorem getVal_setKey_self (d : Doc) (k : String) (v : Value) :
    getVal (setKey d k v) k = some v := by
  induction d with
  | nil => simp [setKey, getVal]
  | cons p rest ih =>
    obtain ⟨a, b⟩ := p
    by_cases h : a = k
    · simp [setKey, h, getVal]
    · simp [setKey, h, getVal, ih]

theorem getVal_setKey_ne (d : Doc) (k k1 : String) (v : Value) (h : k1 ≠ k) :
    getVal (setKey d k v) k1 = getVal d k1 := by
  have hk : ¬ (k = k1) := fun h1 => h h1.symm
  induction d with
  | nil => simp [setKey, getVal, hk]
  | cons p rest ih =>
    obtain ⟨a, b⟩ := p
    by_cases hp : a = k
    · have hp2 : ¬ (a = k1) := by rw [hp]; exact hk
      simp [setKey, hp, getVal, hk, hp2]
    · by_cases hq : a = k1
      · simp [setKey, hp, getVal, hq, h]
      · simp [setKey, hp, getVal, hq, ih]

theorem setKey_eq_self (d : Doc) (k : String) (v : Value)
    (h : getVal d k = some v) : setKey d k v = d := by
  induction d with
  | nil => simp [getVal] at h
  | cons p rest ih =>
    obtain ⟨a, b⟩ := p
    by_cases hp : a = k
    · simp [getVal, hp] at h
      simp [setKey, hp, h]
    · simp [getVal, hp] at h
      simp [setKey, hp, ih h]

theorem getVal_eraseKey_ne (d : Doc) (k k1 : String) (h : k1 ≠ k) :
    getVal (eraseKey d k) k1 = getVal d k1 := by
  have hk : ¬ (k = k1) := fun h1 => h h1.symm
  induction d with
  | nil => simp [eraseKey]
  | cons p rest ih =>
    obtain ⟨a, b⟩ := p
    by_cases hp : a = k
    · simp [eraseKey, hp, getVal, hk, ih]
    · by_cases hq : a = k1
      · simp [eraseKey, hp, getVal, hq, h]
      · simp [eraseKey, hp, getVal, hq, ih]

theorem getVal_eraseKey_self (d : Doc) (k : String) :
    getVal (eraseKey d k) k = none := by
  induction d with
  | nil => simp [eraseKey, getVal]
  | cons p rest ih =>
    obtain ⟨a, b⟩ := p
    by_cases hp : a = k
    · simp [eraseKey, hp, ih]
    · simp [eraseKey, hp, getVal, ih]

theorem eraseKey_eq_self (d : Doc) (k : String) (h : getVal d k = none) :
    eraseKey d k = d := by
  induction d with
  | nil => simp [eraseKey]
  | cons p rest ih =>
    obtain ⟨a, b⟩ := p
    by_cases hp : a = k
    · simp [getVal, hp] at h
    · simp [getVal, hp] at h
      simp [eraseKey, hp, ih h]

/-! ### Normalizer lemmas -/

theorem getVal_normTimestampKey_self (d : Doc) (k : String) :
    getVal (normTimestampKey d k) k = Option.map toIso (getVal d k) := by
  unfold normTimestampKey hasKey
  cases h : getVal d k with
  | none => simp [h]
  | some v => simp [h, getVal_setKey_self]

theorem getVal_normTimestampKey_ne (d : Doc) (k k1 : String) (h : k1 ≠ k) :
    getVal (normTimestampKey d k) k1 = getVal d k1 := by
  unfold normTimestampKey
  split
  · exact getVal_setKey_ne d k k1 _ h
  · rfl

theorem getVal_normalizeDoc_idKey (d : Doc) :
    getVal (normalizeDoc d) "_id" = none := by
  unfold normalizeDoc
  rw [getVal_normTimestampKey_ne _ _ _ (by decide),
    getVal_normTimestampKey_ne _ _ _ (by decide),
    getVal_setKey_ne _ _ _ _ (by decide),
    getVal_eraseKey_self]

theorem getVal_normalizeDoc_id (d : Doc) :
    getVal (normalizeDoc d) "id" =
      some (.vstr (pyStr ((getVal d "_id").getD (.vstr "")))) := by
  unfold normalizeDoc
  rw [getVal_normTimestampKey_ne _ _ _ (by decide),
    getVal_normTimestampKey_ne _ _ _ (by decide),
    getVal_setKey_self]

theorem getVal_normalizeDoc_created (d : Doc) :
    getVal (normalizeDoc d) "created_at" =
      Option.map toIso (getVal d "created_at") := by
  unfold normalizeDoc
  rw [getVal_normTimestampKey_ne _ _ _ (by decide),
    getVal_normTimestampKey_self,
    getVal_setKey_ne _ _ _ _ (by decide),
    getVal_eraseKey_ne _ _ _ (by decide)]

theorem getVal_normalizeDoc_updated (d : Doc) :
    getVal (normalizeDoc d) "updated_at" =
      Option.map toIso (getVal d "updated_at") := by
  unfold normalizeDoc
  rw [getVal_normTimestampKey_self,
    getVal_normTimestampKey_ne _ _ _ (by decide),
    getVal_setKey_ne _ _ _ _ (by decide),
    getVal_eraseKey_ne _ _ _ (by decide)]

theorem toIso_eq_self (v : Value) (h : hasIsoformat v = false) : toIso v = v := by
  cases v <;> simp_all [toIso, hasIsoformat]

theorem normTimestampKey_eq_self (d : Doc) (k : String)
    (h : ∀ v, getVal d k = some v → hasIsoformat v = false) :
    normTimestampKey d k = d := by
  unfold normTimestampKey
  cases hv : getVal d k with
  | none => simp [hasKey, hv]
  | some v =>
    simp only [hasKey, hv, Option.isSome_some, if_true, Option.getD_some]
    rw [toIso_eq_self v (h v hv), setKey_eq_self d k v hv]

theorem normalizeDoc_of_normalized (d : Doc) (h : isNormalizedB d = true) :
    normalizeDoc d = setKey d "id" (.vstr "") := by
  simp only [isNormalizedB, Bool.and_eq_true, Option.isNone_iff_eq_none] at h
  obtain ⟨⟨⟨hid, hpub⟩, hc⟩, hu⟩ := h
  unfold normalizeDoc
  dsimp only
  rw [hid, eraseKey_eq_self d _ hid]
  have hc1 : ∀ v, getVal (setKey d "id" (.vstr (pyStr ((none : Option Value).getD (.vstr ""))))) "created_at" = some v →
      hasIsoformat v = false := by
    intro v hv
    rw [getVal_setKey_ne _ _ _ _ (by decide)] at hv
    rw [hv] at hc
    simpa using hc
  rw [normTimestampKey_eq_self _ _ hc1]
  have hu1 : ∀ v, getVal (setKey d "id" (.vstr (pyStr ((none : Option Value).getD (.vstr ""))))) "updated_at" = some v →
      hasIsoformat v = false := by
    intro v hv
    rw [getVal_setKey_ne _ _ _ _ (by decide)] at hv
    rw [hv] at hu
    simpa using hu
  rw [normTimestampKey_eq_self _ _ hu1]
  rfl


/-! ### Claim theorems -/

/-- Claim C1: for every list of cart items the shipping returned by the
cart summary is 0 if the exact subtotal is 0 or exceeds 25, and 4.99
otherwise; in particular a cart with subtotal exactly 25 gets shipping
4.99, and a cart with subtotal 25.01 gets shipping 0. -/
theorem cart_shipping_policy :
    (∀ items : List CartItem, (compute_cart_summary items).shipping =
      if cartSubtotal items = 0 ∨ cartSubtotal items > 25 then 0 else 499/100) ∧
    (∀ items : List CartItem, cartSubtotal items = 25 →
      (compute_cart_summary items).shipping = 499/100) ∧
    (∀ items : List CartItem, cartSubtotal items = 2501/100 →
      (compute_cart_summary items).shipping = 0) := by
  have hbase : ∀ items : List CartItem,
      (compute_cart_summary items).shipping = rawShipping (cartSubtotal items) := by
    intro items
    rw [compute_cart_summary_eq]
    exact round2_rawShipping _
  refine ⟨fun items => ?_, fun items h => ?_, fun items h => ?_⟩
  · rw [hbase]; rfl
  · rw [hbase, h]; norm_num [rawShipping]
  · rw [hbase, h]; norm_num [rawShipping]

/-- Witness for C1 at the two boundary carts: one item of price 25 and
one item of price 25.01, each with qty 1. -/
theorem cart_shipping_policy_witness :
    cartSubtotal [{ id := "b", name := "b", price := 25, qty := 1 }] = 25 ∧
    (compute_cart_summary [{ id := "b", name := "b", price := 25, qty := 1 }]).shipping = 499/100 ∧
    cartSubtotal [{ id := "c", name := "c", price := 2501/100, qty := 1 }] = 2501/100 ∧
    (compute_cart_summary [{ id := "c", name := "c", price := 2501/100, qty := 1 }]).shipping = 0 := by
  have h1 : cartSubtotal [{ id := "b", name := "b", price := 25, qty := 1 }] = 25 := by
    norm_num [cartSubtotal]
  have h2 : cartSubtotal [{ id := "c", name := "c", price := 2501/100, qty := 1 }] = 2501/100 := by
    norm_num [cartSubtotal]
  exact ⟨h1, cart_shipping_policy.2.1 _ h1, h2, cart_shipping_policy.2.2 _ h2⟩

/-- Claim C2: rounding happens at each stage independently: the tax is
round2 of the unrounded subtotal times 0.07, the total is round2 of the
unrounded subtotal plus the rounded tax plus the rounded shipping, and
the returned subtotal and shipping fields are round2 of their unrounded
values. -/
theorem cart_rounding_stages (items : List CartItem) :
    (compute_cart_summary items).tax = round2 (cartSubtotal items * (7/100)) ∧
    (compute_cart_summary items).total =
      round2 (cartSubtotal items + round2 (cartSubtotal items * (7/100))
        + round2 (rawShipping (cartSubtotal items))) ∧
    (compute_cart_summary items).subtotal = round2 (cartSubtotal items) ∧
    (compute_cart_summary items).shipping = round2 (rawShipping (cartSubtotal items)) := by
  rw [compute_cart_summary_eq]
  refine ⟨rfl, ?_, rfl, rfl⟩
  rw [round2_rawShipping]

/-- Claim C3: for lists of items whose quantities are all nonnegative,
the pre-rounding subtotal of the cart summary equals the exact sum of
price_i times qty_i over all items, and the subtotal of the empty list
is 0. -/
theorem cart_subtotal_exact (items : List CartItem)
    (h : ∀ i ∈ items, cartItemValid i) :
    cartSubtotal items = specSubtotal items ∧
    (compute_cart_summary items).subtotal = round2 (specSubtotal items) ∧
    cartSubtotal ([] : List CartItem) = 0 := by
  refine ⟨cartSubtotal_eq_specSubtotal items, ?_, rfl⟩
  rw [compute_cart_summary_eq, cartSubtotal_eq_specSubtotal]

/-- Witness for C3 at a one-item cart with price 3 and qty 2. -/
theorem cart_subtotal_exact_witness :
    (∀ i ∈ [({ id := "a", name := "n", price := 3, qty := 2 } : CartItem)], cartItemValid i) ∧
    cartSubtotal [({ id := "a", name := "n", price := 3, qty := 2 } : CartItem)] =
      specSubtotal [({ id := "a", name := "n", price := 3, qty := 2 } : CartItem)] := by
  have h : ∀ i ∈ [({ id := "a", name := "n", price := 3, qty := 2 } : CartItem)], cartItemValid i := by
    decide
  exact ⟨h, (cart_subtotal_exact _ h).1⟩

/-- Claim C7: the single item with price 10 and qty 2 yields subtotal
20, tax 1.4, shipping 4.99, total 26.39, and the empty list yields all
four fields 0. -/
theorem cart_examples :
    compute_cart_summary [{ id := "1", name := "apple", price := 10, qty := 2 }] =
      { subtotal := 20, tax := 7/5, shipping := 499/100, total := 2639/100 } ∧
    compute_cart_summary [] = { subtotal := 0, tax := 0, shipping := 0, total := 0 } := by
  constructor
  · rw [compute_cart_summary_eq]
    have hs : cartSubtotal [{ id := "1", name := "apple", price := 10, qty := 2 }] = 20 := by
      norm_num [cartSubtotal]
    rw [hs]
    have hship : rawShipping 20 = 499/100 := by norm_num [rawShipping]
    have htax : round2 ((20 : ℚ) * (7/100)) = 7/5 := by
      rw [round2_eval _ 140 (by norm_num)]
      norm_num
    rw [round2_rawShipping, hship, htax]
    have hsub : round2 (20 : ℚ) = 20 := by
      rw [round2_eval _ 2000 (by norm_num)]
      norm_num
    have htot : round2 ((20 : ℚ) + 7/5 + 499/100) = 2639/100 := by
      rw [round2_eval _ 2639 (by norm_num)]
      norm_num
    rw [hsub, htot]
  · rw [compute_cart_summary_eq]
    have hs : cartSubtotal ([] : List CartItem) = 0 := rfl
    rw [hs]
    have hship : rawShipping 0 = 0 := by norm_num [rawShipping]
    have h0 : (0 : ℚ) * (7/100) = 0 := by norm_num
    rw [hship, h0, round2_zero]
    have h00 : (0 : ℚ) + 0 + 0 = 0 := by norm_num
    rw [h00, round2_zero]

/-- Claim C9: price is unconstrained at the boundary, so a valid cart
whose exact subtotal is negative still succeeds, gets the flat shipping
fee 4.99, and a valid cart with a negative total exists. -/
theorem cart_negative_price (items : List CartItem)
    (hv : ∀ i ∈ items, cartItemValid i) (hneg : cartSubtotal items < 0) :
    (compute_cart_summary items).shipping = 499/100 ∧
    ∃ js : List CartItem, (∀ j ∈ js, cartItemValid j) ∧
      cartSubtotal js < 0 ∧ (compute_cart_summary js).total < 0 := by
  constructor
  · rw [compute_cart_summary_eq, round2_rawShipping]
    unfold rawShipping
    rw [if_neg]
    push_neg
    exact ⟨ne_of_lt hneg, by linarith⟩
  · refine ⟨[{ id := "x", name := "x", price := -100, qty := 1 }], by decide, ?_, ?_⟩
    · norm_num [cartSubtotal]
    · have hs : cartSubtotal [{ id := "x", name := "x", price := -100, qty := 1 }] = -100 := by
        norm_num [cartSubtotal]
      rw [compute_cart_summary_eq, hs]
      have hship : rawShipping (-100) = 499/100 := by norm_num [rawShipping]
      have htax : round2 ((-100 : ℚ) * (7/100)) = -7 := by
        rw [round2_eval _ (-700) (by norm_num)]
        norm_num
      rw [hship, htax]
      have htot : round2 ((-100 : ℚ) + -7 + 499/100) = -10201/100 := by
        rw [round2_eval _ (-10201) (by norm_num)]
        norm_num
      rw [htot]
      norm_num

/-- Witness for C9 at the one-item cart with price -100 and qty 1. -/
theorem cart_negative_price_witness :
    (∀ i ∈ [({ id := "x", name := "x", price := -100, qty := 1 } : CartItem)], cartItemValid i) ∧
    cartSubtotal [({ id := "x", name := "x", price := -100, qty := 1 } : CartItem)] < 0 ∧
    (compute_cart_summary [({ id := "x", name := "x", price := -100, qty := 1 } : CartItem)]).shipping = 499/100 := by
  have hv : ∀ i ∈ [({ id := "x", name := "x", price := -100, qty := 1 } : CartItem)], cartItemValid i := by
    decide
  have hn : cartSubtotal [({ id := "x", name := "x", price := -100, qty := 1 } : CartItem)] < 0 := by
    norm_num [cartSubtotal]
  exact ⟨hv, hn, (cart_negative_price _ hv hn).1⟩

/-- Claim C4: normalization removes the opaque identifier key and
stores its string form under the public id key; when the identifier key
is absent the id value is the empty string, and the identifier key is
absent from the output. -/
theorem normalize_id_key (d : Doc) :
    getVal (normalizeDoc d) "_id" = none ∧
    getVal (normalizeDoc d) "id" =
      some (.vstr (pyStr ((getVal d "_id").getD (.vstr "")))) ∧
    (getVal d "_id" = none → getVal (normalizeDoc d) "id" = some (.vstr "")) := by
  refine ⟨getVal_normalizeDoc_idKey d, getVal_normalizeDoc_id d, fun h => ?_⟩
  rw [getVal_normalizeDoc_id d, h]
  rfl

/-- Witness for C4 at a record that has no identifier key. -/
theorem normalize_id_key_witness :
    getVal [(("title" : String), Value.vstr "milk")] "_id" = none ∧
    getVal (normalizeDoc [(("title" : String), Value.vstr "milk")]) "id" =
      some (Value.vstr "") := by
  have h : getVal [(("title" : String), Value.vstr "milk")] "_id" = none := by decide
  exact ⟨h, (normalize_id_key _).2.2 h⟩

/-- Claim C5 counterexample: a mapping in normalized shape (it is the
output of normalizing a raw record with identifier X) is changed by a
second application of normalization, so normalization is not
idempotent. -/
theorem normalize_not_idempotent :
    isNormalizedB (normalizeDoc [(("_id" : String), Value.vid "X")]) = true ∧
    normalizeDoc (normalizeDoc [(("_id" : String), Value.vid "X")]) ≠
      normalizeDoc [(("_id" : String), Value.vid "X")] := by
  constructor
  · decide
  · decide

/-- Claim C5 as amended: renormalizing an already-normalized mapping
(id key a string, no identifier key, no datetime timestamps) changes
only the id entry, overwriting it with the empty string, because the
absent identifier key is popped with default emptystring; the mapping
is unchanged exactly when its id value is already the empty string. -/
theorem normalize_renormalize (d : Doc) (h : isNormalizedB d = true) :
    normalizeDoc d = setKey d "id" (.vstr "") ∧
    (getVal d "id" = some (.vstr "") → normalizeDoc d = d) := by
  refine ⟨normalizeDoc_of_normalized d h, fun hid => ?_⟩
  rw [normalizeDoc_of_normalized d h, setKey_eq_self d _ _ hid]

/-- Witness for the amended C5 at a normalized mapping whose id value
is the empty string. -/
theorem normalize_renormalize_witness :
    isNormalizedB [(("id" : String), Value.vstr ""), (("title" : String), Value.vstr "milk")] = true ∧
    normalizeDoc [(("id" : String), Value.vstr ""), (("title" : String), Value.vstr "milk")] =
      [(("id" : String), Value.vstr ""), (("title" : String), Value.vstr "milk")] := by
  have h : isNormalizedB [(("id" : String), Value.vstr ""), (("title" : String), Value.vstr "milk")] = true := by
    decide
  exact ⟨h, (normalize_renormalize _ h).2 (by decide)⟩

/-- Claim C6: for each timestamp key, a present datetime value is
replaced by its ISO string, a present value without an isoformat
attribute passes through unchanged, and an absent key stays absent
(normalization is total, so nothing is raised). -/
theorem normalize_timestamps (d : Doc) :
    (∀ s, getVal d "created_at" = some (.vdatetime s) →
      getVal (normalizeDoc d) "created_at" = some (.vstr s)) ∧
    (∀ v, getVal d "created_at" = some v → hasIsoformat v = false →
      getVal (normalizeDoc d) "created_at" = some v) ∧
    (getVal d "created_at" = none → getVal (normalizeDoc d) "created_at" = none) ∧
    (∀ s, getVal d "updated_at" = some (.vdatetime s) →
      getVal (normalizeDoc d) "updated_at" = some (.vstr s)) ∧
    (∀ v, getVal d "updated_at" = some v → hasIsoformat v = false →
      getVal (normalizeDoc d) "updated_at" = some v) ∧
    (getVal d "updated_at" = none → getVal (normalizeDoc d) "updated_at" = none) := by
  refine ⟨fun s h => ?_, fun v h hiso => ?_, fun h => ?_,
    fun s h => ?_, fun v h hiso => ?_, fun h => ?_⟩
  · rw [getVal_normalizeDoc_created, h]; rfl
  · rw [getVal_normalizeDoc_created, h]
    simp [toIso_eq_self v hiso]
  · rw [getVal_normalizeDoc_created, h]; rfl
  · rw [getVal_normalizeDoc_updated, h]; rfl
  · rw [getVal_normalizeDoc_updated, h]
    simp [toIso_eq_self v hiso]
  · rw [getVal_normalizeDoc_updated, h]; rfl

/-- Witness for C6: a record with a datetime created_at is converted,
and a record lacking updated_at keeps lacking it. -/
theorem normalize_timestamps_witness :
    getVal [(("created_at" : String), Value.vdatetime "2024-01-01T00:00:00")] "created_at" =
      some (Value.vdatetime "2024-01-01T00:00:00") ∧
    getVal (normalizeDoc [(("created_at" : String), Value.vdatetime "2024-01-01T00:00:00")]) "created_at" =
      some (Value.vstr "2024-01-01T00:00:00") ∧
    getVal [(("title" : String), Value.vstr "milk")] "updated_at" = none ∧
    getVal (normalizeDoc [(("title" : String), Value.vstr "milk")]) "updated_at" = none := by
  have h1 : getVal [(("created_at" : String), Value.vdatetime "2024-01-01T00:00:00")] "created_at" =
      some (Value.vdatetime "2024-01-01T00:00:00") := by decide
  have h2 : getVal [(("title" : String), Value.vstr "milk")] "updated_at" = none := by decide
  exact ⟨h1, (normalize_timestamps _).1 _ h1, h2, (normalize_timestamps _).2.2.2.2.2 h2⟩

/-- Claim C8: any store error from insert or fetch surfaces from the
product and user endpoints as a 500 response whose detail is the
underlying message; the handlers neither retry (each consults the
single store outcome once) nor interpret the error. -/
theorem endpoints_surface_store_errors (e : String) :
    create_product (.error e) = .error { status_code := 500, detail := e } ∧
    list_products (.error e) = .error { status_code := 500, detail := e } ∧
    create_user (.error e) = .error { status_code := 500, detail := e } ∧
    list_users (.error e) = .error { status_code := 500, detail := e } :=
  ⟨rfl, rfl, rfl, rfl⟩

/-- Claim C10: normalization leaves every key other than the opaque
identifier key, the id key and the two timestamp keys bound to its
original value. -/
theorem normalize_frame (d : Doc) (k : String) (h1 : k ≠ "_id")
    (h2 : k ≠ "id") (h3 : k ≠ "created_at") (h4 : k ≠ "updated_at") :
    getVal (normalizeDoc d) k = getVal d k := by
  unfold normalizeDoc
  dsimp only
  rw [getVal_normTimestampKey_ne _ _ _ h4, getVal_normTimestampKey_ne _ _ _ h3,
    getVal_setKey_ne _ _ _ _ h2, getVal_eraseKey_ne _ _ _ h1]

/-- Witness for C10 at the price key of a two-key record. -/
theorem normalize_frame_witness :
    ("price" : String) ≠ "_id" ∧
    getVal (normalizeDoc [(("_id" : String), Value.vid "a1"), (("price" : String), Value.vnum 5)]) "price" =
      getVal [(("_id" : String), Value.vid "a1"), (("price" : String), Value.vnum 5)] "price" := by
  exact ⟨by decide, normalize_frame _ _ (by decide) (by decide) (by decide) (by decide)⟩
